import Mathlib

/-!
Shallow embedding of the retrieval core of the rag-python-mongodb repository:
`cache_manager.py` (QueryCache), `vector_store_manager.py` (CosmosDBVectorStore)
and `rag_chain.py` (RAGSystem retrieval/reset paths).

Conventions of the embedding:
* Python floats are modelled exactly: scores, embedding components and the
  cache hit rate as rationals `ℚ`; timestamps and TTLs — which the code only
  subtracts and compares — as integers `ℤ`, with `time.time()` passed in
  explicitly as a `now` argument.
* A Python `dict` is modelled as an insertion-ordered association list with
  unique keys: assignment updates the first matching key in place or appends,
  `del` removes the first matching key, iteration order is list order.
* The cache key `hashlib.md5(json.dumps({query: q.lower().strip(), top_k: k},
  sort_keys=True).encode()).hexdigest()` is a deterministic injective function
  (up to negligible md5 collisions) of the pair (normalized query, top_k), so
  the key is modelled as that pair itself.
* External collaborators (embedding provider, MongoDB collection) are oracle
  functions supplied as parameters; a call that the Python code may see raise
  an exception is an oracle returning `Except` / an explicit outcome value.
* Functions that perform external calls also return a call log, so that
  "no call reaches the store / the embedder" is a statement about the log.
-/

namespace RagCore

/-! ## Python dict model (insertion-ordered association list) -/

/-- Lookup of `d[k]` / `k in d`: first entry whose key equals `k`. -/
def dictGet {κ β : Type} [DecidableEq κ] : List (κ × β) → κ → Option β
  | [], _ => none
  | (k', v') :: rest, k => if k = k' then some v' else dictGet rest k

/-- Assignment `d[k] = v`: update the first matching key in place, else append. -/
def dictInsert {κ β : Type} [DecidableEq κ] : List (κ × β) → κ → β → List (κ × β)
  | [], k, v => [(k, v)]
  | (k', v') :: rest, k, v =>
    if k = k' then (k', v) :: rest else (k', v') :: dictInsert rest k v

/-- Deletion `del d[k]`: remove the first matching key. -/
def dictErase {κ β : Type} [DecidableEq κ] : List (κ × β) → κ → List (κ × β)
  | [], _ => []
  | (k', v') :: rest, k => if k = k' then rest else (k', v') :: dictErase rest k

/-! ## cache_manager.py -/

/-- `CacheEntry` dataclass: data, creation timestamp and ttl (cache_manager.py:10-15). -/
structure CacheEntry (α : Type) where
  data : α
  timestamp : ℤ
  ttl : ℤ
deriving Repr, DecidableEq

/-- `CacheEntry.is_expired`: `time.time() - self.timestamp > self.ttl`
(cache_manager.py:17-18), with the current time passed explicitly. -/
def CacheEntry.is_expired {α : Type} (e : CacheEntry α) (now : ℤ) : Bool :=
  decide (now - e.timestamp > e.ttl)

/-- `QueryCache` state: the dict of entries, capacity bound, default ttl and the
hit/miss counters (cache_manager.py:20-28). -/
structure QueryCache (α : Type) where
  cache : List ((String × Nat) × CacheEntry α)
  max_size : Nat
  default_ttl : ℤ
  hits : Nat
  misses : Nat
deriving Repr, DecidableEq

/-- `QueryCache.__init__(max_size, default_ttl)`: empty dict, zero counters. -/
def QueryCache.init (α : Type) (max_size : Nat) (default_ttl : ℤ) : QueryCache α :=
  ⟨[], max_size, default_ttl, 0, 0⟩

/-- Python `str.lower()`: lower-case every character. -/
def pyLower (s : String) : String := ⟨s.data.map Char.toLower⟩

/-- Python `str.strip()`: drop leading and trailing whitespace. -/
def pyStrip (s : String) : String :=
  ⟨((s.data.dropWhile Char.isWhitespace).reverse.dropWhile Char.isWhitespace).reverse⟩

/-- `QueryCache._generate_key(query, top_k)` (cache_manager.py:30-33): the md5
digest of the sorted json of `{query: query.lower().strip(), top_k: top_k}`,
modelled as the pair it is derived from. -/
def generate_key (query : String) (top_k : Nat) : String × Nat :=
  (pyStrip (pyLower query), top_k)

/-- `QueryCache.get(query, top_k)` (cache_manager.py:35-50): on an unexpired
entry increments `hits` and returns its data; an expired entry is deleted and,
like an absent key, falls through to `misses += 1` and `None`. -/
def QueryCache.get {α : Type} (c : QueryCache α) (now : ℤ) (query : String)
    (top_k : Nat) : Option α × QueryCache α :=
  match dictGet c.cache (generate_key query top_k) with
  | some entry =>
    if entry.is_expired now then
      (none, { c with cache := dictErase c.cache (generate_key query top_k),
                      misses := c.misses + 1 })
    else
      (some entry.data, { c with hits := c.hits + 1 })
  | none => (none, { c with misses := c.misses + 1 })

/-- Python `ttl or self.default_ttl` (cache_manager.py:65): `None` and the
falsy value `0` both select the default. -/
def pyOrTtl (ttl : Option ℤ) (d : ℤ) : ℤ :=
  match ttl with
  | some t => if t = 0 then d else t
  | none => d

/-- The accumulator step of Python `min` with a key function: keep the current
minimum, replacing it only on a strictly smaller key. -/
def minStep {α : Type} (best q : (String × Nat) × CacheEntry α) :
    (String × Nat) × CacheEntry α :=
  if q.2.timestamp < best.2.timestamp then q else best

/-- `min(self.cache.keys(), key=lambda k: self.cache[k].timestamp)`
(cache_manager.py:59): first entry (in dict iteration order) with the minimal
timestamp; `None` on an empty dict, where Python `min` raises `ValueError`. -/
def minTimestampEntry {α : Type} :
    List ((String × Nat) × CacheEntry α) → Option ((String × Nat) × CacheEntry α)
  | [] => none
  | p :: rest => some (rest.foldl minStep p)

/-- `QueryCache.put(query, result, top_k, ttl)` (cache_manager.py:52-67): when
`len(cache) >= max_size`, first deletes the entry with the oldest timestamp
(raising — `none` — if the dict is empty, since `min([])` raises), then stores
the new entry under the generated key with `timestamp = now`. -/
def QueryCache.put {α : Type} (c : QueryCache α) (now : ℤ) (query : String)
    (result : α) (top_k : Nat) (ttl : Option ℤ) : Option (QueryCache α) :=
  if c.max_size ≤ c.cache.length then
    match minTimestampEntry c.cache with
    | none => none
    | some oldest =>
      some { c with cache := (dictInsert (dictErase c.cache oldest.1)
               (generate_key query top_k) ⟨result, now, pyOrTtl ttl c.default_ttl⟩) }
  else
    some { c with cache := (dictInsert c.cache (generate_key query top_k)
             ⟨result, now, pyOrTtl ttl c.default_ttl⟩) }

/-- `QueryCache.clear()` (cache_manager.py:69-73). -/
def QueryCache.clear {α : Type} (c : QueryCache α) : QueryCache α :=
  { c with cache := [], hits := 0, misses := 0 }

/-- The record returned by `QueryCache.get_stats` (cache_manager.py:75-86).
`hit_rate` is the numeric percentage `hits / total * 100`; the Python code
formats this number as a two-decimal percent string. -/
structure CacheStats where
  hits : Nat
  misses : Nat
  hit_rate : ℚ
  cache_size : Nat
  max_size : Nat
deriving Repr, DecidableEq

/-- `QueryCache.get_stats()` (cache_manager.py:75-86). -/
def QueryCache.get_stats {α : Type} (c : QueryCache α) : CacheStats :=
  let total := c.hits + c.misses
  { hits := c.hits
    misses := c.misses
    hit_rate := if 0 < total then (c.hits : ℚ) / (total : ℚ) * 100 else 0
    cache_size := c.cache.length
    max_size := c.max_size }

/-- One call to `put`, for reasoning about sequences of puts. -/
structure PutOp (α : Type) where
  now : ℤ
  query : String
  result : α
  top_k : Nat
  ttl : Option ℤ

/-- Apply a `put`; a raising `put` (ValueError from `min([])`) leaves the
state unchanged, since the exception fires before the dict is mutated. -/
def applyPut {α : Type} (c : QueryCache α) (op : PutOp α) : QueryCache α :=
  (c.put op.now op.query op.result op.top_k op.ttl).getD c

/-! ## vector_store_manager.py -/

/-- A metadata value (Python dicts here hold strings or numbers). -/
inductive MVal : Type
  | str (s : String)
  | num (q : ℚ)
deriving Repr, DecidableEq

/-- A Python metadata dict. -/
abbrev Metadata := List (String × MVal)

/-- A LangChain `Document`: `page_content` and a metadata dict. -/
structure LCDocument where
  page_content : String
  metadata : Metadata
deriving Repr, DecidableEq

/-- The record inserted into the collection by `add_documents`
(vector_store_manager.py:70-75). -/
structure DocRecord where
  _id : String
  content : String
  metadata : Metadata
  embedding : List ℚ
deriving Repr, DecidableEq

/-- External calls issued by `add_documents`, recorded in order. -/
inductive ExtCall : Type
  | embedDocuments (texts : List String)
  | insertMany (docs : List DocRecord)
  | insertOne (d : DocRecord)
deriving Repr, DecidableEq

/-- The id assigned to chunk `i` (vector_store_manager.py:68):
`ids[i] if ids and i < len(ids) else f"doc_{i}_{hash(doc.page_content)}"`;
`ids` is falsy when `None` or empty. Python `hash` is the oracle `hashFn`. -/
def chunkId (hashFn : String → Int) (ids : Option (List String)) (i : Nat)
    (content : String) : String :=
  match ids with
  | some l =>
    if l ≠ [] ∧ i < l.length then l.getD i ("")
    else ("doc_") ++ toString i ++ ("_") ++ toString (hashFn content)
  | none => ("doc_") ++ toString i ++ ("_") ++ toString (hashFn content)

/-- The `docs_to_insert` list built by the loop at
vector_store_manager.py:67-77: `enumerate(zip(documents, embeddings))`. -/
def buildRecords (hashFn : String → Int) (ids : Option (List String))
    (documents : List LCDocument) (embs : List (List ℚ)) : List DocRecord :=
  (documents.zip embs).enum.map fun p =>
    { _id := chunkId hashFn ids p.1 p.2.1.page_content
      content := p.2.1.page_content
      metadata := p.2.1.metadata
      embedding := p.2.2 }

/-- Outcome of `add_documents`: the returned id list, the set of records
actually persisted in the collection, and the external calls issued. -/
structure AddResult where
  returnedIds : List String
  persisted : List DocRecord
  calls : List ExtCall
deriving Repr, DecidableEq

/-- `CosmosDBVectorStore.add_documents(documents, ids)`
(vector_store_manager.py:54-93). Oracles: `embedDocuments` is
`self.embeddings.embed_documents` (outside any try block — its exception
propagates); `bulkOutcome docs = none` means `insert_many(docs, ordered=False)`
succeeded (all persisted), `some pre` means it raised after persisting the
subset `pre`; `itemOk` decides whether a fallback `insert_one` of a
not-yet-persisted record succeeds (already-persisted records fail as
duplicates; every failure is swallowed by the bare `except: pass`). The
returned id list is `inserted_ids`, built before any insert attempt and
returned unconditionally at vector_store_manager.py:93. -/
def add_documents (embedDocuments : List String → Except Unit (List (List ℚ)))
    (hashFn : String → Int)
    (bulkOutcome : List DocRecord → Option (List DocRecord))
    (itemOk : DocRecord → Bool)
    (documents : List LCDocument) (ids : Option (List String)) :
    Except Unit AddResult :=
  if documents.isEmpty then .ok ⟨[], [], []⟩
  else
    let texts := documents.map (·.page_content)
    match embedDocuments texts with
    | .error e => .error e
    | .ok embeddings =>
      let docs_to_insert := buildRecords hashFn ids documents embeddings
      let inserted_ids := docs_to_insert.map (·._id)
      if docs_to_insert.isEmpty then
        .ok ⟨inserted_ids, [], [.embedDocuments texts]⟩
      else
        match bulkOutcome docs_to_insert with
        | none =>
          .ok ⟨inserted_ids, docs_to_insert,
               [.embedDocuments texts, .insertMany docs_to_insert]⟩
        | some pre =>
          .ok ⟨inserted_ids,
               pre ++ docs_to_insert.filter (fun d => itemOk d && !(pre.contains d)),
               [.embedDocuments texts, .insertMany docs_to_insert]
                 ++ docs_to_insert.map .insertOne⟩

/-- A row of the `$search`/`$project` aggregation result
(vector_store_manager.py:101-118): `content` is accessed unconditionally,
`metadata` and `score` via `.get` with defaults. -/
structure AggRow where
  content : String
  metadata : Option Metadata
  score : Option ℚ
deriving Repr, DecidableEq

/-- A row of the `$text` search result used by the fallback
(vector_store_manager.py:141-144). -/
structure FindRow where
  content : String
  metadata : Option Metadata
deriving Repr, DecidableEq

/-- Conversion of a vector-search row to a Document
(vector_store_manager.py:126-129): metadata is
`{**result.get("metadata", {}), "score": result.get("score", 0)}`. -/
def vecRowToDoc (r : AggRow) : LCDocument :=
  { page_content := r.content
    metadata := dictInsert (r.metadata.getD []) "score" (MVal.num (r.score.getD 0)) }

/-- `CosmosDBVectorStore._fallback_search(query, k)`
(vector_store_manager.py:138-156): a `$text` search mapped to Documents
without any score in the metadata; any exception yields `[]`. -/
def fallback_search (textFind : String → Nat → Except Unit (List FindRow))
    (query : String) (k : Nat) : List LCDocument :=
  match textFind query k with
  | .ok rows => rows.map fun r => ⟨r.content, r.metadata.getD []⟩
  | .error _ => []

/-- `CosmosDBVectorStore.similarity_search(query, k)`
(vector_store_manager.py:95-136). `embedQuery` is
`self.embeddings.embed_query`, called before the try block: its exception
propagates. Only the `aggregate` call is inside the try; on its failure the
result of the lexical fallback is returned. -/
def similarity_search (embedQuery : String → Except Unit (List ℚ))
    (aggregate : List ℚ → Nat → Except Unit (List AggRow))
    (textFind : String → Nat → Except Unit (List FindRow))
    (query : String) (k : Nat) : Except Unit (List LCDocument) :=
  match embedQuery query with
  | .error e => .error e
  | .ok query_embedding =>
    match aggregate query_embedding k with
    | .ok results => .ok (results.map vecRowToDoc)
    | .error _ => .ok (fallback_search textFind query k)

/-- `CosmosDBVectorStore.delete_all()` (vector_store_manager.py:158-164):
`delete_many({})` removes every record; an exception is logged and swallowed,
leaving the collection unchanged. `deleteOk` is the oracle outcome. -/
def delete_all (docs : List DocRecord) (deleteOk : Bool) : List DocRecord :=
  if deleteOk then [] else docs

/-! ## rag_chain.py (retrieval and reset paths)

`RAGSystem` (rag_chain.py:22-161) holds a `CosmosDBVectorStore` and a
`DocumentProcessor`; it constructs no `QueryCache` — `cache_manager` is never
imported by any other module of the repository. -/

/-- The vector store as a stateful oracle: `search` is
`similarity_search(query, k)`, threading an abstract store state `σ`
(which lets a concrete instance count how many calls reach the store). -/
structure StoreOracle (σ : Type) where
  search : σ → String → Nat → List LCDocument × σ

/-- `CustomRetriever.get_relevant_documents(query)` (rag_chain.py:146-147):
`return self.vector_store.similarity_search(query, k=self.k)` — a single
direct store call; no cache is consulted or populated. The last component
logs the store calls this invocation makes. -/
def get_relevant_documents {σ : Type} (store : StoreOracle σ) (k : Nat)
    (s : σ) (query : String) : List LCDocument × σ × List (String × Nat) :=
  let r := store.search s query k
  (r.1, r.2, [(query, k)])

/-- Modelled from the spec (§4.3 `retrieve`), for comparison with
`get_relevant_documents`: check the cache first; on a hit return the cached
value with no store call; on a miss call the store, `put` the result and
return it. This behaviour appears nowhere in the repository's code. -/
def specRetrieve {σ : Type} (store : StoreOracle σ) (k : Nat) (now : ℤ)
    (cache : QueryCache (List LCDocument)) (s : σ) (query : String) :
    List LCDocument × QueryCache (List LCDocument) × σ × List (String × Nat) :=
  match cache.get now query k with
  | (some v, c1) => (v, c1, s, [])
  | (none, c1) =>
    let r := store.search s query k
    let c2 := (c1.put now query r.1 k none).getD c1
    (r.1, c2, r.2, [(query, k)])

/-- The administrative calls a reset can make. -/
inductive AdminCall : Type
  | deleteAll
  | cacheClear
deriving Repr, DecidableEq

/-- `RAGSystem.clear_database()` (rag_chain.py:154-156):
`self.vector_store.delete_all()` — the only call made; the repository holds
no cache to clear. Returns the store contents after the call and the log of
administrative calls issued. -/
def clear_database (docs : List DocRecord) (deleteOk : Bool) :
    List DocRecord × List AdminCall :=
  (delete_all docs deleteOk, [AdminCall.deleteAll])

/-! ## Helper lemmas about the dict model and the cache -/

theorem dictGet_isSome_of_mem {κ β : Type} [DecidableEq κ] {l : List (κ × β)}
    {p : κ × β} (h : p ∈ l) : (dictGet l p.1).isSome := by
  induction l with
  | nil => cases h
  | cons a t ih =>
    obtain ⟨k', v'⟩ := a
    rcases List.mem_cons.mp h with rfl | h
    · simp [dictGet]
    · by_cases hk : p.1 = k'
      · simp [dictGet, hk]
      · simp [dictGet, hk, ih h]

theorem dictErase_length {κ β : Type} [DecidableEq κ] {l : List (κ × β)} {k : κ}
    (h : (dictGet l k).isSome) : (dictErase l k).length + 1 = l.length := by
  induction l with
  | nil => simp [dictGet] at h
  | cons a t ih =>
    obtain ⟨k', v'⟩ := a
    by_cases hk : k = k'
    · simp [dictErase, hk]
    · simp only [dictGet, if_neg hk] at h
      simp [dictErase, hk, ih h]

theorem dictInsert_length_le {κ β : Type} [DecidableEq κ] (l : List (κ × β))
    (k : κ) (v : β) : (dictInsert l k v).length ≤ l.length + 1 := by
  induction l with
  | nil => simp [dictInsert]
  | cons a t ih =>
    obtain ⟨k', v'⟩ := a
    by_cases hk : k = k'
    · simp [dictInsert, hk]
    · simpa [dictInsert, hk] using ih

theorem foldl_minStep_mem {α : Type} (l : List ((String × Nat) × CacheEntry α))
    (p : (String × Nat) × CacheEntry α) :
    l.foldl minStep p = p ∨ l.foldl minStep p ∈ l := by
  induction l generalizing p with
  | nil => exact Or.inl rfl
  | cons a t ih =>
    simp only [List.foldl_cons]
    rcases ih (minStep p a) with h | h
    · rw [h]
      unfold minStep
      by_cases ha : a.2.timestamp < p.2.timestamp
      · simp [ha]
      · simp [ha]
    · exact Or.inr (List.mem_cons_of_mem _ h)

theorem foldl_minStep_le {α : Type} (l : List ((String × Nat) × CacheEntry α))
    (p : (String × Nat) × CacheEntry α) :
    (l.foldl minStep p).2.timestamp ≤ p.2.timestamp
    ∧ ∀ q ∈ l, (l.foldl minStep p).2.timestamp ≤ q.2.timestamp := by
  induction l generalizing p with
  | nil => exact ⟨le_refl _, by simp⟩
  | cons a t ih =>
    simp only [List.foldl_cons]
    have step_le_p : (minStep p a).2.timestamp ≤ p.2.timestamp := by
      unfold minStep
      by_cases ha : a.2.timestamp < p.2.timestamp
      · simpa [ha] using le_of_lt ha
      · simp [ha]
    have step_le_a : (minStep p a).2.timestamp ≤ a.2.timestamp := by
      unfold minStep
      by_cases ha : a.2.timestamp < p.2.timestamp
      · simp [ha]
      · simpa [ha] using le_of_not_lt ha
    refine ⟨(ih (minStep p a)).1.trans step_le_p, ?_⟩
    intro q hq
    rcases List.mem_cons.mp hq with hqa | hq
    · rw [hqa]; exact (ih (minStep p a)).1.trans step_le_a
    · exact (ih (minStep p a)).2 q hq

theorem minTimestampEntry_spec {α : Type}
    {l : List ((String × Nat) × CacheEntry α)}
    {p0 : (String × Nat) × CacheEntry α} (h : minTimestampEntry l = some p0) :
    p0 ∈ l ∧ ∀ q ∈ l, p0.2.timestamp ≤ q.2.timestamp := by
  cases l with
  | nil => simp [minTimestampEntry] at h
  | cons a t =>
    simp only [minTimestampEntry, Option.some.injEq] at h
    subst h
    constructor
    · rcases foldl_minStep_mem t a with h | h
      · rw [h]; exact List.mem_cons_self _ _
      · exact List.mem_cons_of_mem _ h
    · intro q hq
      rcases List.mem_cons.mp hq with hqa | hq
      · rw [hqa]; exact (foldl_minStep_le t a).1
      · exact (foldl_minStep_le t a).2 q hq

theorem put_getD_length_le {α : Type} (c : QueryCache α) (now : ℤ) (q : String)
    (r : α) (k : Nat) (ttl : Option ℤ) (hinv : c.cache.length ≤ c.max_size) :
    ((c.put now q r k ttl).getD c).cache.length ≤ c.max_size := by
  unfold QueryCache.put
  by_cases hfull : c.max_size ≤ c.cache.length
  · simp only [if_pos hfull]
    cases hmin : minTimestampEntry c.cache with
    | none => simpa using hinv
    | some p0 =>
      have hmem := (minTimestampEntry_spec hmin).1
      have he := dictErase_length (dictGet_isSome_of_mem hmem)
      have hi := dictInsert_length_le (dictErase c.cache p0.1)
        (generate_key q k) ⟨r, now, pyOrTtl ttl c.default_ttl⟩
      simp only [Option.getD_some]
      omega
  · simp only [if_neg hfull, Option.getD_some]
    have hi := dictInsert_length_le c.cache
      (generate_key q k) ⟨r, now, pyOrTtl ttl c.default_ttl⟩
    omega

theorem applyPut_max_size {α : Type} (c : QueryCache α) (op : PutOp α) :
    (applyPut c op).max_size = c.max_size := by
  unfold applyPut QueryCache.put
  by_cases hfull : c.max_size ≤ c.cache.length
  · simp only [if_pos hfull]
    cases hmin : minTimestampEntry c.cache <;> simp
  · simp [if_neg hfull]

theorem foldl_applyPut_max_size {α : Type} (ops : List (PutOp α))
    (c : QueryCache α) : (ops.foldl applyPut c).max_size = c.max_size := by
  induction ops generalizing c with
  | nil => rfl
  | cons op t ih => simp only [List.foldl_cons]; rw [ih, applyPut_max_size]

theorem foldl_applyPut_length_le {α : Type} (ops : List (PutOp α))
    (c : QueryCache α) (hinv : c.cache.length ≤ c.max_size) :
    (ops.foldl applyPut c).cache.length ≤ c.max_size := by
  induction ops generalizing c with
  | nil => exact hinv
  | cons op t ih =>
    simp only [List.foldl_cons]
    have h1 : (applyPut c op).cache.length ≤ c.max_size :=
      put_getD_length_le c op.now op.query op.result op.top_k op.ttl hinv
    have h2 := ih (applyPut c op) (by rw [applyPut_max_size]; exact h1)
    rwa [applyPut_max_size] at h2

theorem get_stats_cache_size {α : Type} (c : QueryCache α) :
    c.get_stats.cache_size = c.cache.length := rfl

theorem get_stats_hits_eq {α : Type} (c : QueryCache α) :
    c.get_stats.hits = c.hits := rfl

theorem get_stats_misses_eq {α : Type} (c : QueryCache α) :
    c.get_stats.misses = c.misses := rfl

/-! ## Claim theorems -/

/-- C5 (confirmed): for any sequence of `put` calls on a cache constructed with
`maxSize = N`, after each `put` the number of stored entries is at most `N`
(a `put` that raises — `min` over an empty dict when `max_size = 0` — leaves
the state unchanged, since the exception fires before the dict is mutated);
and whenever a `put` on a full cache evicts an entry, the evicted entry —
`minTimestampEntry`, whose key the code deletes — belongs to the cache and has
the smallest `createdAt` timestamp among the current entries. -/
theorem cache_capacity_and_oldest_eviction {α : Type} (N : Nat) (ttl0 : ℤ)
    (ops : List (PutOp α)) :
    (∀ i : Nat,
      ((ops.take i).foldl applyPut (QueryCache.init α N ttl0)).cache.length ≤ N)
    ∧ (∀ (c : QueryCache α) (now : ℤ) (q : String) (r : α) (k : Nat)
        (ttl : Option ℤ) (p0 : (String × Nat) × CacheEntry α),
        c.max_size ≤ c.cache.length →
        minTimestampEntry c.cache = some p0 →
        p0 ∈ c.cache ∧ (∀ p ∈ c.cache, p0.2.timestamp ≤ p.2.timestamp) ∧
        c.put now q r k ttl =
          some { c with cache := (dictInsert (dictErase c.cache p0.1)
                   (generate_key q k) ⟨r, now, pyOrTtl ttl c.default_ttl⟩) }) := by
  constructor
  · intro i
    exact foldl_applyPut_length_le (ops.take i) (QueryCache.init α N ttl0)
      (by simp [QueryCache.init])
  · intro c now q r k ttl p0 hfull hmin
    refine ⟨(minTimestampEntry_spec hmin).1, (minTimestampEntry_spec hmin).2, ?_⟩
    unfold QueryCache.put
    rw [if_pos hfull, hmin]

def c5ops : List (PutOp Nat) :=
  [⟨0, "a", 1, 5, none⟩, ⟨1, "b", 2, 5, none⟩, ⟨2, "c", 3, 5, none⟩]

def c5full : QueryCache Nat :=
  ⟨[(("a", 5), ⟨10, 5, 100⟩), (("b", 5), ⟨20, 3, 100⟩)], 2, 100, 0, 0⟩

def c5min : (String × Nat) × CacheEntry Nat := (("b", 5), ⟨20, 3, 100⟩)

/-- Witness for C5: three puts into a cache of capacity 1 leave at most one
entry, and a put into a full two-entry cache evicts the entry with the older
timestamp. -/
theorem cache_capacity_and_oldest_eviction_witness :
    (((c5ops.take 3).foldl applyPut (QueryCache.init Nat 1 100)).cache.length ≤ 1)
    ∧ (c5min ∈ c5full.cache
       ∧ (∀ p ∈ c5full.cache, c5min.2.timestamp ≤ p.2.timestamp)
       ∧ c5full.put 99 ("z") 7 5 none =
          some { c5full with cache := (dictInsert (dictErase c5full.cache c5min.1)
                   (generate_key ("z") 5) ⟨7, 99, pyOrTtl none c5full.default_ttl⟩) }) :=
  ⟨(cache_capacity_and_oldest_eviction 1 100 c5ops).1 3,
   (cache_capacity_and_oldest_eviction 1 100 c5ops).2 c5full 99 ("z") 7 5 none c5min
     (by decide) (by decide)⟩

/-- C6 (confirmed): once `now - createdAt > ttl`, `get` returns `none` even on
the first access after expiry, and removes the expired entry, so the cache
size — as also reported by a subsequent `get_stats` — decreases by one. -/
theorem cache_get_expired_entry {α : Type} (c : QueryCache α) (now : ℤ)
    (q : String) (k : Nat) (e : CacheEntry α)
    (hfind : dictGet c.cache (generate_key q k) = some e)
    (hexp : now - e.timestamp > e.ttl) :
    (c.get now q k).1 = none
    ∧ (c.get now q k).2.cache.length + 1 = c.cache.length
    ∧ (c.get now q k).2.get_stats.cache_size + 1 = c.get_stats.cache_size := by
  have hexpb : e.is_expired now = true := by
    simp only [CacheEntry.is_expired, decide_eq_true_eq]
    exact hexp
  have hlen : (dictErase c.cache (generate_key q k)).length + 1 = c.cache.length :=
    dictErase_length (by simp [hfind])
  unfold QueryCache.get
  rw [hfind]
  simp [hexpb, get_stats_cache_size, hlen]

def c6cache : QueryCache Nat := ⟨[(("q", 5), ⟨0, 0, 10⟩)], 100, 10, 0, 0⟩

/-- Witness for C6: an entry created at time 0 with ttl 10, read at time 20. -/
theorem cache_get_expired_entry_witness :
    (c6cache.get 20 ("q") 5).1 = none
    ∧ (c6cache.get 20 ("q") 5).2.cache.length + 1 = c6cache.cache.length
    ∧ (c6cache.get 20 ("q") 5).2.get_stats.cache_size + 1
        = c6cache.get_stats.cache_size :=
  cache_get_expired_entry c6cache 20 ("q") 5 ⟨0, 0, 10⟩ (by decide) (by decide)

def c7cache0 : QueryCache Nat := QueryCache.init Nat 10 3600
def c7cache1 : QueryCache Nat := applyPut c7cache0 ⟨0, "a", 1, 5, none⟩
def c7cache2 : QueryCache Nat := (c7cache1.get 1 ("a") 5).2
def c7cache3 : QueryCache Nat := (c7cache2.get 1 ("b") 5).2

/-- C7 counterexample: after one hit and one miss (`hits = 1`, `misses = 1`)
the code's `get_stats` hit rate is the percentage `50` (formatted by the code
as the string `"50.00%"`), not `hits/(hits+misses) = 1/2` as the claim
states. -/
theorem get_stats_hit_rate_cex :
    c7cache3.hits = 1 ∧ c7cache3.misses = 1
    ∧ c7cache3.get_stats.hit_rate = 50
    ∧ c7cache3.get_stats.hit_rate ≠
        (c7cache3.get_stats.hits : ℚ)
          / ((c7cache3.get_stats.hits : ℚ) + (c7cache3.get_stats.misses : ℚ)) := by
  have h1 : c7cache3.hits = 1 := rfl
  have h2 : c7cache3.misses = 1 := rfl
  have hrate : c7cache3.get_stats.hit_rate = 50 := by
    simp only [QueryCache.get_stats, h1, h2]
    norm_num
  refine ⟨h1, h2, hrate, ?_⟩
  rw [hrate, get_stats_hits_eq, get_stats_misses_eq, h1, h2]
  norm_num

/-- C7 (corrected): `get_stats` returns `hits`, `misses`, `size` and
`maxSize` verbatim, and a hit rate expressed as a percentage —
`100 * hits / (hits + misses)`, or `0` when no requests have been made — a
value always between 0 and 100 (the code renders it as a percent string). -/
theorem get_stats_fields {α : Type} (c : QueryCache α) :
    c.get_stats.hits = c.hits ∧ c.get_stats.misses = c.misses
    ∧ c.get_stats.cache_size = c.cache.length
    ∧ c.get_stats.max_size = c.max_size
    ∧ c.get_stats.hit_rate =
        (if c.hits + c.misses = 0 then 0
         else 100 * (c.hits : ℚ) / (((c.hits + c.misses : Nat)) : ℚ))
    ∧ 0 ≤ c.get_stats.hit_rate ∧ c.get_stats.hit_rate ≤ 100 := by
  have le_cast : (c.hits : ℚ) ≤ (((c.hits + c.misses : Nat)) : ℚ) := by
    exact_mod_cast Nat.le_add_right c.hits c.misses
  refine ⟨rfl, rfl, rfl, rfl, ?_, ?_, ?_⟩
  · simp only [QueryCache.get_stats]
    rcases Nat.eq_zero_or_pos (c.hits + c.misses) with h | h
    · simp [h]
    · rw [if_pos h, if_neg (Nat.pos_iff_ne_zero.mp h)]
      ring
  · simp only [QueryCache.get_stats]
    rcases Nat.eq_zero_or_pos (c.hits + c.misses) with h | h
    · simp [h]
    · rw [if_pos h]
      positivity
  · simp only [QueryCache.get_stats]
    rcases Nat.eq_zero_or_pos (c.hits + c.misses) with h | h
    · simp [h]
    · rw [if_pos h]
      calc (c.hits : ℚ) / (((c.hits + c.misses : Nat)) : ℚ) * 100
          ≤ 1 * 100 := by
            apply mul_le_mul_of_nonneg_right _ (by norm_num)
            exact div_le_one_of_le₀ le_cast (by positivity)
        _ = 100 := by norm_num

/-- C8 (confirmed): the cache key case-folds and trims the query before
hashing, so `get("Hello ", 5)` and `get("hello", 5)` compute the same key as
`put("hello", 5, v)` and both hit that entry. -/
theorem cache_key_normalization {α : Type} (v : α) :
    generate_key ("Hello ") 5 = generate_key ("hello") 5
    ∧ ((applyPut (QueryCache.init α 1000 3600) ⟨0, "hello", v, 5, none⟩).get 0
         ("Hello ") 5).1 = some v
    ∧ ((applyPut (QueryCache.init α 1000 3600) ⟨0, "hello", v, 5, none⟩).get 0
         ("hello") 5).1 = some v :=
  ⟨rfl, rfl, rfl⟩

/-- The fresh cache of the C9 scenario holding `v` under query `"q"`, `k = 5`. -/
def c9afterPut {α : Type} (v : α) : QueryCache α :=
  applyPut (QueryCache.init α 1000 3600) ⟨0, "q", v, 5, none⟩

/-- The C9 scenario state after two `get("q", 5)` calls at time 1. -/
def c9afterTwoGets {α : Type} (v : α) : QueryCache α :=
  (((c9afterPut v).get 1 ("q") 5).2.get 1 ("q") 5).2

/-- The C9 scenario state after a further `get("other", 5)` at time 1. -/
def c9afterOtherGet {α : Type} (v : α) : QueryCache α :=
  ((c9afterTwoGets v).get 1 ("other") 5).2

/-- C9 (confirmed): on a fresh cache, `put(q,5,v)` then two `get(q,5)` calls
give `hits = 2`, `misses = 0`, and a further `get(other,5)` gives
`misses = 1`; moreover `hits` and `misses` never decrease across any `get`,
are untouched by any `put`, and are reset to zero by `clear`. -/
theorem cache_hit_miss_accounting {α : Type} (v : α) :
    ((c9afterTwoGets v).hits = 2 ∧ (c9afterTwoGets v).misses = 0
      ∧ (c9afterOtherGet v).misses = 1 ∧ (c9afterOtherGet v).hits = 2)
    ∧ (∀ (c : QueryCache α) (now : ℤ) (q : String) (k : Nat),
        c.hits ≤ (c.get now q k).2.hits ∧ c.misses ≤ (c.get now q k).2.misses)
    ∧ (∀ (c : QueryCache α) (op : PutOp α),
        (applyPut c op).hits = c.hits ∧ (applyPut c op).misses = c.misses)
    ∧ (∀ (c : QueryCache α), c.clear.hits = 0 ∧ c.clear.misses = 0) := by
  refine ⟨⟨rfl, rfl, rfl, rfl⟩, ?_, ?_, fun c => ⟨rfl, rfl⟩⟩
  · intro c now q k
    unfold QueryCache.get
    cases hd : dictGet c.cache (generate_key q k) with
    | some entry =>
      by_cases hexp : entry.is_expired now
      · simp [hexp]
      · simp [hexp]
    | none => simp
  · intro c op
    unfold applyPut QueryCache.put
    by_cases hfull : c.max_size ≤ c.cache.length
    · rw [if_pos hfull]
      cases hmin : minTimestampEntry c.cache <;> simp
    · rw [if_neg hfull]
      simp

theorem buildRecords_length (hashFn : String → Int) (ids : Option (List String))
    (documents : List LCDocument) (embs : List (List ℚ)) :
    (buildRecords hashFn ids documents embs).length
      = min documents.length embs.length := by
  simp [buildRecords]

/-- C10 (confirmed): `add_documents` on an empty document list immediately
returns an empty id list, making no call at all — neither to the embedding
provider nor to the collection (the call log is empty). -/
theorem add_documents_empty_no_calls
    (embedDocuments : List String → Except Unit (List (List ℚ)))
    (hashFn : String → Int)
    (bulkOutcome : List DocRecord → Option (List DocRecord))
    (itemOk : DocRecord → Bool) (ids : Option (List String)) :
    add_documents embedDocuments hashFn bulkOutcome itemOk [] ids
      = .ok ⟨[], [], []⟩ := rfl

def c1docs : List LCDocument :=
  [⟨"a", []⟩, ⟨"b", []⟩, ⟨"c", []⟩, ⟨"d", []⟩, ⟨"e", []⟩]

def c1embed : List String → Except Unit (List (List ℚ)) :=
  fun ts => .ok (ts.map fun _ => [0])

/-- The per-item insert oracle of the C1 scenario: the records holding
contents "a" and "b" fail their individual inserts, the other three
succeed. -/
def c1itemOk : DocRecord → Bool :=
  fun d => !(d.content == "a" || d.content == "b")

/-- The C1 scenario: five documents, a total bulk-insert failure
(`some []`: nothing persisted by the bulk path), and exactly 2 of the 5
individual inserts failing. -/
def c1result : AddResult :=
  (add_documents c1embed (fun _ => 0) (fun _ => some []) c1itemOk
    c1docs none).toOption.getD ⟨[], [], []⟩

/-- C1 counterexample: with the bulk path failing and exactly 2 of 5
individual inserts failing, `add_documents` returns 5 ids — not 3 — and the
returned list contains the id `"doc_0_0"` of a record that was never
persisted: the id list is built before any insert and returned unchanged
(vector_store_manager.py:65-93). -/
theorem add_documents_partial_failure_cex :
    c1result.returnedIds.length = 5
    ∧ c1result.persisted.length = 3
    ∧ ¬ c1result.returnedIds.length = 3
    ∧ c1result.returnedIds.contains ("doc_0_0") = true
    ∧ (c1result.persisted.map (fun d => d._id)).contains ("doc_0_0") = false := by
  decide

/-- C1 (corrected): `add_documents` computes its id list before attempting any
insert and returns it unchanged whatever the insert outcomes: whenever the
embedding call succeeds, runs with any two bulk/per-item failure patterns
return the same ids — one per zipped (document, embedding) pair — so the
returned length reflects the input, never the persisted subset. -/
theorem add_documents_ids_independent
    (embedDocuments : List String → Except Unit (List (List ℚ)))
    (hashFn : String → Int)
    (b1 b2 : List DocRecord → Option (List DocRecord))
    (i1 i2 : DocRecord → Bool)
    (documents : List LCDocument) (ids : Option (List String))
    (embs : List (List ℚ))
    (hemb : embedDocuments (documents.map (fun d => d.page_content)) = .ok embs) :
    ∃ r1 r2 : AddResult,
      add_documents embedDocuments hashFn b1 i1 documents ids = .ok r1
      ∧ add_documents embedDocuments hashFn b2 i2 documents ids = .ok r2
      ∧ r1.returnedIds = r2.returnedIds
      ∧ r1.returnedIds
          = (buildRecords hashFn ids documents embs).map (fun d => d._id)
      ∧ r1.returnedIds.length = min documents.length embs.length := by
  have key : ∀ (b : List DocRecord → Option (List DocRecord)) (i : DocRecord → Bool),
      ∃ r, add_documents embedDocuments hashFn b i documents ids = .ok r
        ∧ r.returnedIds
            = (buildRecords hashFn ids documents embs).map (fun d => d._id) := by
    intro b i
    by_cases hd : documents.isEmpty
    · have hnil : documents = [] := List.isEmpty_iff.mp hd
      subst hnil
      exact ⟨⟨[], [], []⟩, rfl, by simp [buildRecords]⟩
    · simp only [add_documents, hemb, if_neg hd]
      by_cases hre : (buildRecords hashFn ids documents embs).isEmpty
      · rw [if_pos hre]
        exact ⟨_, rfl, rfl⟩
      · rw [if_neg hre]
        cases hb : b (buildRecords hashFn ids documents embs) with
        | none => exact ⟨_, rfl, rfl⟩
        | some pre => exact ⟨_, rfl, rfl⟩
  obtain ⟨r1, h1, e1⟩ := key b1 i1
  obtain ⟨r2, h2, e2⟩ := key b2 i2
  refine ⟨r1, r2, h1, h2, by rw [e1, e2], e1, ?_⟩
  rw [e1, List.length_map, buildRecords_length]

/-- Witness for C1: the theorem applied to the concrete 5-document scenario,
once with the failing insert oracles and once with everything succeeding. -/
theorem add_documents_ids_independent_witness :
    ∃ r1 r2 : AddResult,
      add_documents c1embed (fun _ => 0) (fun _ => some []) c1itemOk c1docs none
        = .ok r1
      ∧ add_documents c1embed (fun _ => 0) (fun _ => none) (fun _ => true)
          c1docs none = .ok r2
      ∧ r1.returnedIds = r2.returnedIds
      ∧ r1.returnedIds
          = (buildRecords (fun _ => 0) none c1docs
              [[0], [0], [0], [0], [0]]).map (fun d => d._id)
      ∧ r1.returnedIds.length
          = min c1docs.length [[(0:ℚ)], [0], [0], [0], [0]].length :=
  add_documents_ids_independent c1embed (fun _ => 0) (fun _ => some []) (fun _ => none)
    c1itemOk (fun _ => true) c1docs none [[0], [0], [0], [0], [0]] rfl

/-- C4 counterexample: a provider error from the external embedding function
is not caught — `embed_query` sits outside the try block
(vector_store_manager.py:98) — so `similarity_search` raises instead of
returning the lexical fallback. -/
theorem similarity_search_raises_cex :
    similarity_search (fun _ => .error ()) (fun _ _ => .ok []) (fun _ _ => .ok [])
      ("q") 5 = .error () := rfl

/-- C4 (corrected): once the query embedding succeeds, `similarity_search`
never raises: a failing `aggregate` call transparently yields the lexical
`_fallback_search` result, a succeeding one yields the mapped vector rows,
and a failing fallback yields `[]`; but an embedding-provider error
propagates to the caller (see the counterexample). -/
theorem similarity_search_fallback
    (embedQuery : String → Except Unit (List ℚ))
    (aggregate : List ℚ → Nat → Except Unit (List AggRow))
    (textFind : String → Nat → Except Unit (List FindRow))
    (query : String) (k : Nat) (emb : List ℚ)
    (hemb : embedQuery query = .ok emb) :
    (aggregate emb k = .error () →
        similarity_search embedQuery aggregate textFind query k
          = .ok (fallback_search textFind query k))
    ∧ (∀ rows, aggregate emb k = .ok rows →
        similarity_search embedQuery aggregate textFind query k
          = .ok (rows.map vecRowToDoc))
    ∧ (∀ e, similarity_search embedQuery aggregate textFind query k ≠ .error e)
    ∧ (textFind query k = .error () →
        fallback_search textFind query k = []) := by
  refine ⟨?_, ?_, ?_, ?_⟩
  · intro ha
    simp [similarity_search, hemb, ha]
  · intro rows ha
    simp [similarity_search, hemb, ha]
  · intro e
    simp only [similarity_search, hemb]
    cases ha : aggregate emb k <;> simp
  · intro ht
    simp [fallback_search, ht]

def c4textFind : String → Nat → Except Unit (List FindRow) :=
  fun _ _ => .ok [⟨"c", some [("source", MVal.str "t1")]⟩]

/-- Witness for C4: with a succeeding embedder and a failing vector search,
the result is exactly the fallback search's result. -/
theorem similarity_search_fallback_witness :
    similarity_search (fun _ => .ok [1]) (fun _ _ => .error ()) c4textFind
      ("sky") 2 = .ok (fallback_search c4textFind ("sky") 2) :=
  (similarity_search_fallback (fun _ => .ok [1]) (fun _ _ => .error ()) c4textFind
    ("sky") 2 [1] rfl).1 rfl

/-- A store oracle whose state counts how many search calls reach the store. -/
def countingStore : StoreOracle Nat := ⟨fun n _ _ => ([], n + 1)⟩

def c2code1 : List LCDocument × Nat × List (String × Nat) :=
  get_relevant_documents countingStore 1 0 ("sky")

def c2code2 : List LCDocument × Nat × List (String × Nat) :=
  get_relevant_documents countingStore 1 c2code1.2.1 ("sky")

def c2spec1 :
    List LCDocument × QueryCache (List LCDocument) × Nat × List (String × Nat) :=
  specRetrieve countingStore 1 0 (QueryCache.init (List LCDocument) 1000 3600)
    0 ("sky")

def c2spec2 :
    List LCDocument × QueryCache (List LCDocument) × Nat × List (String × Nat) :=
  specRetrieve countingStore 1 0 c2spec1.2.1 c2spec1.2.2.1 ("sky")

/-- C2 counterexample: the repository's retriever
(`CustomRetriever.get_relevant_documents`, the only retrieval path of
`RAGSystem`) consults no cache — `rag_chain.py` never imports or constructs
`QueryCache` — so a second `retrieve` with identical arguments reaches the
store again: the store's call counter is 2 and the second call's store-log is
nonempty, whereas the spec-modelled cache-consulting `specRetrieve` reaches
the store once and its second call logs no store call. -/
theorem retriever_bypasses_cache_cex :
    c2code2.2.1 = 2 ∧ c2code2.2.2 = [(("sky"), 1)]
    ∧ c2spec2.2.2.1 = 1 ∧ c2spec2.2.2.2 = [] := by decide

/-- C2 (corrected): for every store oracle and state, the orchestrator's
retrieval path returns exactly the store's `similarity_search` result and
issues exactly one store call per invocation — the repository's `QueryCache`
is never consulted or populated (it is dead code) — so a repeated identical
retrieve issues a store call again rather than being served from a cache. -/
theorem retriever_always_calls_store {σ : Type} (store : StoreOracle σ)
    (k : Nat) (s : σ) (query : String) :
    (get_relevant_documents store k s query).1 = (store.search s query k).1
    ∧ (get_relevant_documents store k s query).2.1 = (store.search s query k).2
    ∧ (get_relevant_documents store k s query).2.2 = [(query, k)]
    ∧ (get_relevant_documents store k
        (get_relevant_documents store k s query).2.1 query).2.2 = [(query, k)] :=
  ⟨rfl, rfl, rfl, rfl⟩

/-- C3 counterexample: `clear_database` issues only the store's `delete_all`;
no cache-clear call occurs — the orchestrator holds no cache to clear. -/
theorem reset_skips_cache_clear_cex :
    (clear_database [] true).2 = [AdminCall.deleteAll]
    ∧ AdminCall.cacheClear ∉ (clear_database [] true).2 := by decide

/-- C3 (corrected): `clear_database` calls exactly the vector store's
`delete_all` and nothing else — in particular no cache clear; a succeeding
delete leaves the store empty, while a failing one is swallowed and leaves
the documents in place. -/
theorem clear_database_only_deletes_store (docs : List DocRecord)
    (deleteOk : Bool) :
    (clear_database docs deleteOk).2 = [AdminCall.deleteAll]
    ∧ AdminCall.cacheClear ∉ (clear_database docs deleteOk).2
    ∧ (clear_database docs deleteOk).1 = (if deleteOk then [] else docs) := by
  refine ⟨rfl, ?_, rfl⟩
  intro h
  simp [clear_database] at h

end RagCore
